import Mathlib

/-!
Verification of the zk-framework client library (morphy76/zk).

The Go sources are shallowly embedded: each Go function that the claims
depend on is translated into an executable Lean definition over explicit
state values.  Go maps are modelled as association lists (the list order
stands in for Go's map iteration order; every claim settled here is
iteration-order independent or exercised on tie-free inputs), byte slices
as `List Nat`, Go `int`/`int64` as `Int`, and the remote coordination
service as an oracle function passed to the operation under scrutiny.
Goroutines, channels and locks are modelled only where a claim depends on
them, with the blocking discipline of unbuffered Go channels made explicit.
-/

/-! ## Model of the Go standard `path` package (lexical path algebra)

The framework builds every node path with `path.Join`, which joins its
non-empty arguments with `/` and then applies `path.Clean`.  `path.Clean`
is a purely lexical algorithm: iteratively replace multiple separators by
one, eliminate `.` elements, eliminate `..` together with the preceding
non-`..` element, and eliminate `..` elements at the beginning of a rooted
path; an empty result becomes `.` (or `/` when rooted).  The definitions
below implement exactly that algorithm on the character list underlying
the string. -/

def sepChar : Char := '/'

/-- Split a character list on the separator character; mirrors
`strings.Split(s, "/")`: the result always has one more chunk than there
are separators, and no chunk contains the separator. -/
def splitSlash : List Char → List (List Char)
  | [] => [[]]
  | c :: rest =>
    let r := splitSlash rest
    if c = sepChar then [] :: r
    else
      match r with
      | [] => [[c]]
      | h :: t => (c :: h) :: t

/-- Join chunks with a single separator between consecutive chunks;
mirrors `strings.Join(chunks, "/")`. -/
def joinSlash : List (List Char) → List Char
  | [] => []
  | [x] => x
  | x :: y :: t => x ++ sepChar :: joinSlash (y :: t)

/-- The element processing loop of Go `path.Clean`, on the already-split
chunks: empty chunks (collapsed separators) and `.` are dropped, `..` pops
the previous element when one exists (and is not itself a `..`), a leading
`..` is dropped in a rooted path and kept in a relative one, every other
chunk is pushed. -/
def cleanStack (rooted : Bool) : List (List Char) → List (List Char) → List (List Char)
  | acc, [] => acc
  | acc, c :: rest =>
    if c = [] ∨ c = ['.'] then cleanStack rooted acc rest
    else if c = ['.', '.'] then
      if acc.getLast? = some ['.', '.'] then cleanStack rooted (acc ++ [c]) rest
      else if acc = [] then
        (if rooted then cleanStack rooted acc rest else cleanStack rooted [c] rest)
      else cleanStack rooted acc.dropLast rest
    else cleanStack rooted (acc ++ [c]) rest

/-- Whether the path is rooted (starts with the separator). -/
def isRooted (cs : List Char) : Bool :=
  match cs with
  | c :: _ => c = sepChar
  | [] => false

/-- The cleaned chunk sequence of a path. -/
def goCleanChunks (rooted : Bool) (cs : List Char) : List (List Char) :=
  cleanStack rooted [] (splitSlash cs)

/-- Go `path.Clean`. -/
def goClean (p : String) : String :=
  if isRooted p.data then
    String.mk (sepChar :: joinSlash (goCleanChunks true p.data))
  else if goCleanChunks false p.data = [] then
    String.mk ['.']
  else
    String.mk (joinSlash (goCleanChunks false p.data))

/-- Go `path.Join`: drop leading empty elements; if nothing remains the
result is `""`, otherwise the remaining elements (later empty ones
included) are joined with `/` and cleaned. -/
def goPathJoin (elems : List String) : String :=
  match elems.dropWhile (fun e => e = "") with
  | [] => ""
  | rest => goClean (String.mk (joinSlash (rest.map String.data)))

/-- Go `strings.TrimPrefix(s, "/")`: remove one leading separator when
present. -/
def trimLeadingSlash (s : String) : String :=
  match s.data with
  | c :: rest => if c = sepChar then String.mk rest else s
  | [] => s

/-! ## Association-list model of Go maps

`alInsert` overwrites an existing binding in place and otherwise appends,
`alErase` removes the binding, `alLookup` is `m[k]` returning `none` for
a missing key (Go's zero value / `ok = false`). -/

def alLookup {α : Type} : List (String × α) → String → Option α
  | [], _ => none
  | kv :: rest, k => if kv.1 = k then some kv.2 else alLookup rest k

def alInsert {α : Type} : List (String × α) → String → α → List (String × α)
  | [], k, v => [(k, v)]
  | kv :: rest, k, v => if kv.1 = k then (k, v) :: rest else kv :: alInsert rest k v

def alErase {α : Type} : List (String × α) → String → List (String × α)
  | [], _ => []
  | kv :: rest, k => if kv.1 = k then alErase rest k else kv :: alErase rest k

/-! ## Connection states (`github.com/go-zookeeper/zk` states used by the source)

`isConnectedState` is the derived is-connected predicate from
`src/pkg/framework/zk-framework.go`. -/

inductive ZkState where
  | stateUnknown
  | stateDisconnected
  | stateConnecting
  | stateSyncConnected
  | stateAuthFailed
  | stateConnectedReadOnly
  | stateSaslAuthenticated
  | stateExpired
  | stateConnected
  | stateHasSession
  deriving DecidableEq, Repr

def isConnectedState (state : ZkState) : Bool :=
  state = ZkState.stateConnected ||
    state = ZkState.stateHasSession ||
    state = ZkState.stateConnectedReadOnly ||
    state = ZkState.stateSaslAuthenticated ||
    state = ZkState.stateSyncConnected

/-! ## The framework (`src/pkg/framework/zk-framework.go`)

`zKFrameworkImpl` is modelled with its listener registries as association
lists keyed by the listeners' UUIDs.  The listener objects themselves are
opaque to the framework, so the state is parametrised by their type `Λ`;
the Go methods read the key with `listener.UUID()`, which the model takes
as an explicit `uuid` argument next to the listener value.  The `zk.Conn`
handle, the channels and the locks carry no state any claim depends on
and are omitted. -/

structure FrameworkState (Λ : Type) where
  frameworkNamespace : String
  url : String
  state : ZkState
  previousState : ZkState
  started : Bool
  reconnectionTimeoutMs : Nat
  shutdownListeners : List (String × Λ)
  statusChangeListeners : List (String × Λ)

def defaultReconnectionTimeoutMs : Nat := 100

inductive CoreErr where
  | listenerAlreadyExists
  | listenerNotFound
  deriving DecidableEq, Repr

/-- `AddStatusChangeListener`: fails (state unchanged) when the uuid is
already bound, otherwise binds the listener. -/
def addStatusChangeListener {Λ : Type} (c : FrameworkState Λ) (uuid : String) (l : Λ) :
    FrameworkState Λ × Option CoreErr :=
  if (alLookup c.statusChangeListeners uuid).isSome then
    (c, some CoreErr.listenerAlreadyExists)
  else
    ({c with statusChangeListeners := alInsert c.statusChangeListeners uuid l}, none)

/-- `RemoveStatusChangeListener`: fails (state unchanged) when the uuid is
absent, otherwise removes the binding. -/
def removeStatusChangeListener {Λ : Type} (c : FrameworkState Λ) (uuid : String) :
    FrameworkState Λ × Option CoreErr :=
  if (alLookup c.statusChangeListeners uuid).isSome then
    ({c with statusChangeListeners := alErase c.statusChangeListeners uuid}, none)
  else
    (c, some CoreErr.listenerNotFound)

/-- `AddShutdownListener`. -/
def addShutdownListener {Λ : Type} (c : FrameworkState Λ) (uuid : String) (l : Λ) :
    FrameworkState Λ × Option CoreErr :=
  if (alLookup c.shutdownListeners uuid).isSome then
    (c, some CoreErr.listenerAlreadyExists)
  else
    ({c with shutdownListeners := alInsert c.shutdownListeners uuid l}, none)

/-- `RemoveShutdownListener`. -/
def removeShutdownListener {Λ : Type} (c : FrameworkState Λ) (uuid : String) :
    FrameworkState Λ × Option CoreErr :=
  if (alLookup c.shutdownListeners uuid).isSome then
    ({c with shutdownListeners := alErase c.shutdownListeners uuid}, none)
  else
    (c, some CoreErr.listenerNotFound)

/-- Result of `handleStatusChange`: the new framework state, whether
`NotifyStatusChange` was spawned for the listeners, and whether
`invalidateCn` (teardown + backoff + reconnect) was triggered. -/
structure StatusChangeResult (Λ : Type) where
  next : FrameworkState Λ
  notified : Bool
  reconnectTriggered : Bool

/-- `handleStatusChange` (zk-framework.go lines 286-306): an event equal to
the current state returns immediately; otherwise `previousState`/`state`
are rotated, listeners are notified, the backoff is reset on the edge into
a connected state, and on the edge "started, was connected, now not
connected" `invalidateCn` runs (which doubles the backoff and reconnects). -/
def handleStatusChange {Λ : Type} (c : FrameworkState Λ) (state : ZkState) :
    StatusChangeResult Λ :=
  if state = c.state then ⟨c, false, false⟩
  else
    let c1 := {c with previousState := c.state, state := state}
    let c2 :=
      if !isConnectedState c1.previousState && isConnectedState c1.state then
        {c1 with reconnectionTimeoutMs := defaultReconnectionTimeoutMs}
      else c1
    if c2.started && isConnectedState c2.previousState && !isConnectedState c2.state then
      ⟨{c2 with reconnectionTimeoutMs := c2.reconnectionTimeoutMs * 2}, true, true⟩
    else
      ⟨c2, true, false⟩

inductive StartResult where
  | alreadyStarted
  | connError (e : String)
  | ok
  deriving DecidableEq, Repr

/-- `Start` (zk-framework.go lines 79-89): fails when already started;
otherwise it sets `started` first and then attempts the initial connect,
whose outcome is the `connectErr` oracle (`none` = `zk.Connect` succeeded).
A connect error is returned as-is and `started` is left set. -/
def start {Λ : Type} (c : FrameworkState Λ) (connectErr : Option String) :
    FrameworkState Λ × StartResult :=
  if c.started then (c, StartResult.alreadyStarted)
  else
    let c1 := {c with started := true}
    match connectErr with
    | some e => (c1, StartResult.connError e)
    | none => (c1, StartResult.ok)

/-- The decision `WaitConnection` takes before suspending (zk-framework.go
lines 94-101): not-yet-started error, immediate success when already
connected, or blocking on the status-change channel. -/
inductive WaitDecision where
  | notYetStarted
  | immediateOk
  | blocksWaiting
  deriving DecidableEq, Repr

def waitConnectionSync {Λ : Type} (c : FrameworkState Λ) : WaitDecision :=
  if !c.started then WaitDecision.notYetStarted
  else if isConnectedState c.state then WaitDecision.immediateOk
  else WaitDecision.blocksWaiting

/-- The namespace computed by `CreateFramework` (zk-framework.go line 358):
`"/" + strings.TrimPrefix(path.Join(namespace...), "/")`. -/
def createFrameworkNamespace (segments : List String) : String :=
  String.append (String.mk [sepChar]) (trimLeadingSlash (goPathJoin segments))

inductive FrameworkErr where
  | invalidConnectionURL
  deriving DecidableEq, Repr

/-- `CreateFramework` (zk-framework.go lines 353-377). -/
def createFramework (Λ : Type) (url : String) (segments : List String) :
    Except FrameworkErr (FrameworkState Λ) :=
  if url = "" then Except.error FrameworkErr.invalidConnectionURL
  else
    Except.ok
      { frameworkNamespace := createFrameworkNamespace segments
        url := url
        state := ZkState.stateDisconnected
        previousState := ZkState.stateDisconnected
        started := false
        reconnectionTimeoutMs := defaultReconnectionTimeoutMs
        shutdownListeners := []
        statusChangeListeners := [] }

/-- The namespace construction in the spec's words, for comparison with
`createFrameworkNamespace`: each segment trimmed of leading and trailing
separators, empty segments discarded, the rest joined and rendered with
exactly one leading separator and no trailing one. -/
def specTrimJoinNamespace (segments : List String) : String :=
  let trimmed := segments.map
    (fun s => String.mk ((s.data.dropWhile (fun c => c = sepChar)).reverse.dropWhile
      (fun c => c = sepChar)).reverse)
  let nonEmpty := trimmed.filter (fun s => s ≠ "")
  String.append (String.mk [sepChar]) (String.mk (joinSlash (nonEmpty.map String.data)))

/-! ## CRUD operations (`src/pkg/operation/zk-operation.go`)

Every public operation (`Ls`, `Create`, `CreateWithOptions`, `Exists`,
`Delete`, `Update`, `Get`) first calls `execute`, which allocates two
fresh **unbuffered** channels `outChan`/`errChan` and, when the framework
is not started, performs `errChan <- ErrFrameworkNotYetStarted` on the
caller's own goroutine *before* spawning any background goroutine and
*before* returning the channels to the caller.  A send on an unbuffered Go
channel completes only when another goroutine is ready to receive on it;
at that program point the channel has just been created and no other
goroutine holds a reference to it, so the number of possible receivers is
zero and the send can never complete.  `executeSync` captures the fate of
that synchronous prefix of `execute`. -/

/-- Whether a send on an unbuffered Go channel can complete: it
rendezvouses with a receiver, so it completes iff at least one other
goroutine is ready to receive on the channel. -/
def unbufferedSendCompletes (readyReceivers : Nat) : Bool :=
  decide (0 < readyReceivers)

inductive ExecOutcome where
  | blockedForever
  | channelsReturned
  deriving DecidableEq, Repr

/-- The synchronous prefix of `execute` (zk-operation.go lines 276-306).
When `started` is false it sends on `errChan`, whose only reference is
held by the blocked goroutine itself (the channels have not been returned
and no goroutine has been spawned), so zero receivers are ever ready. -/
def executeSync (started : Bool) : ExecOutcome :=
  if started then ExecOutcome.channelsReturned
  else if unbufferedSendCompletes 0 then ExecOutcome.channelsReturned
  else ExecOutcome.blockedForever

inductive OpError where
  | frameworkNotYetStarted
  | unknownNode
  | remoteErr (e : String)
  deriving DecidableEq, Repr

/-- What a public operation call delivers to the caller: a value, an
error received from `errChan`, or no return at all (the call is stuck
inside `execute`). -/
inductive OpOutcome (α : Type) where
  | neverReturns
  | ok (a : α)
  | err (e : OpError)
  deriving DecidableEq, Repr

/-- Shared shape of the six public operations: run `execute`, then select
on the returned channels, where `remote` is the outcome the connection
consumer would deliver against the live session. -/
def operationCall {α : Type} (started : Bool) (remote : Except OpError α) : OpOutcome α :=
  match executeSync started with
  | ExecOutcome.blockedForever => OpOutcome.neverReturns
  | ExecOutcome.channelsReturned =>
    match remote with
    | Except.ok a => OpOutcome.ok a
    | Except.error e => OpOutcome.err e

/-- `operation.Get`. -/
def opGet (started : Bool) (remote : Except OpError (List Nat)) : OpOutcome (List Nat) :=
  operationCall started remote

/-- `operation.Update`. -/
def opUpdate (started : Bool) (remote : Except OpError Int) : OpOutcome Int :=
  operationCall started remote

/-- `operation.Create`. -/
def opCreate (started : Bool) (remote : Except OpError Unit) : OpOutcome Unit :=
  operationCall started remote

/-- `operation.Delete`. -/
def opDelete (started : Bool) (remote : Except OpError Unit) : OpOutcome Unit :=
  operationCall started remote

/-- `operation.Exists`. -/
def opExists (started : Bool) (remote : Except OpError Bool) : OpOutcome Bool :=
  operationCall started remote

/-- `operation.Ls`. -/
def opLs (started : Bool) (remote : Except OpError (List String)) : OpOutcome (List String) :=
  operationCall started remote

/-! ## Watch manager (`src/pkg/watcher/watcher.go`)

A registration is keyed by the decimal protocol codes of the sorted event
types joined with the absolute path (`namePartsToID`).  `Set` defaults an
empty type list to the full set, sorts it, stores a `watchListener` in the
registration table, registers it as shutdown and status-change listener
and arms the underlying one-shot watch; the armed loop forwards exactly
the events whose type is contained in the requested set.  `UnSet` recomputes
the key and calls `Stop` on the table entry; a missing key yields a nil
`*watchListener`, and `Stop` on it dereferences nil (a runtime panic),
modelled as the `none` outcome. -/

inductive EventType where
  | nodeCreated
  | nodeDeleted
  | nodeDataChanged
  | nodeChildrenChanged
  | session
  | notWatching
  deriving DecidableEq, Repr

/-- The wire codes of `zk.EventType` (`EventNodeCreated = 1`, ... ,
`EventSession = -1`, `EventNotWatching = -2`); `slices.Sort` in `Set` and
`UnSet` orders the requested types by this code. -/
def eventTypeCode : EventType → Int
  | EventType.nodeCreated => 1
  | EventType.nodeDeleted => 2
  | EventType.nodeDataChanged => 3
  | EventType.nodeChildrenChanged => 4
  | EventType.session => -1
  | EventType.notWatching => -2

def insertByCode (t : EventType) : List EventType → List EventType
  | [] => [t]
  | u :: rest =>
    if eventTypeCode t ≤ eventTypeCode u then t :: u :: rest
    else u :: insertByCode t rest

/-- `slices.Sort` on the event-type codes (ascending). -/
def sortTypes (ts : List EventType) : List EventType :=
  ts.foldr insertByCode []

/-- The default applied by `Set`/`UnSet` when no event types are given:
the full set {data-changed, children-changed, created, deleted}, in the
order the source lists it. -/
def defaultTypesIfEmpty (ts : List EventType) : List EventType :=
  if ts = [] then
    [EventType.nodeDataChanged, EventType.nodeChildrenChanged,
      EventType.nodeCreated, EventType.nodeDeleted]
  else ts

structure ZkEvent where
  eventType : EventType
  eventPath : String
  deriving DecidableEq, Repr

structure WatchListener where
  ID : String
  path : String
  types : List EventType
  watching : Bool
  disconnected : Bool
  deriving DecidableEq, Repr

/-- `namePartsToID` applied to the name parts built by `Set`/`UnSet`: the
decimal codes of the (defaulted, sorted) types followed by the absolute
path, joined with `-`. -/
def watchID (namespace0 nodeName : String) (ts : List EventType) : String :=
  let actualPath := goPathJoin [namespace0, nodeName]
  let sorted := sortTypes (defaultTypesIfEmpty ts)
  let nameParts := sorted.map (fun t => toString (eventTypeCode t)) ++ [actualPath]
  String.intercalate (String.mk ['-']) nameParts

inductive WatchErr where
  | unknownNode
  | listenerRegistration (e : CoreErr)
  deriving DecidableEq, Repr

/-- `Set` (watcher.go lines 100-139): builds the listener with the
defaulted, sorted type set, stores it in the registration table (before
any of the fallible steps), then arms the watch; `nodeExists` is the
outcome of `cn.ExistsW` on the target path, and a missing node surfaces
`ErrUnknownNode` with the listener left unarmed (`watching = false`) but
still in the table.  The framework-registry bookkeeping is performed on
the framework state elsewhere and is not part of the table model. -/
def watcherSet (table : List (String × WatchListener)) (namespace0 nodeName : String)
    (ts : List EventType) (nodeExists : Bool) :
    List (String × WatchListener) × WatchListener × Option WatchErr :=
  let actualPath := goPathJoin [namespace0, nodeName]
  let sorted := sortTypes (defaultTypesIfEmpty ts)
  let id := watchID namespace0 nodeName ts
  if nodeExists then
    let l : WatchListener :=
      { ID := id, path := actualPath, types := sorted, watching := true, disconnected := false }
    (alInsert table id l, l, none)
  else
    let l : WatchListener :=
      { ID := id, path := actualPath, types := sorted, watching := false, disconnected := false }
    (alInsert table id l, l, some WatchErr.unknownNode)

/-- The event loop `watchFn` armed by `Start` (watcher.go lines 72-84),
run over the finite trace of events delivered by the one-shot watch
channel: an event is sent to the output destination iff
`slices.Contains(w.types, e.Type)`. -/
def processEvents (l : WatchListener) (events : List ZkEvent) : List ZkEvent :=
  events.filter (fun e => decide (e.eventType ∈ l.types))

/-- Outcome of `UnSet`: the nil-pointer dereference when the key is not
in the table, blocking forever inside `Stop()` when no goroutine can
receive the shutdown signal, or completion with the updated table. -/
inductive UnSetOutcome where
  | nilPanic
  | blockedForever
  | completed (table : List (String × WatchListener))
  deriving DecidableEq, Repr

/-- `UnSet` (watcher.go lines 144-173): recompute the registration key and
call `Stop()` on `watchListeners[id]`.  A missing key makes that a method
call on a nil pointer whose body dereferences the pointer — a runtime
panic.  Otherwise `Stop()` clears `watching` and performs
`w.shutdownCh <- true` on the unbuffered private channel whose only
receiver is the `watchFn` goroutine: that goroutine is alive exactly when
the watch was armed (`Start` spawned it after `ExistsW` found the node)
and has not been torn down by a disconnect (`OnStatusChange` stops it and
sets `disconnected` until the reconnect re-arms it), so the send
rendezvouses only when `watching && !disconnected`; in particular, for an
entry whose `Set` failed with `ErrUnknownNode` — stored in the table but
never armed — the send has no receiver and blocks forever.  On completion
the listener is unregistered and the entry removed from the table. -/
def watcherUnSet (table : List (String × WatchListener)) (namespace0 nodeName : String)
    (ts : List EventType) : UnSetOutcome :=
  let id := watchID namespace0 nodeName ts
  match alLookup table id with
  | none => UnSetOutcome.nilPanic
  | some l =>
    if unbufferedSendCompletes (if l.watching && !l.disconnected then 1 else 0) then
      UnSetOutcome.completed (alErase table id)
    else UnSetOutcome.blockedForever

/-! ## Cache (`src/unnamed/part_014`, package cache)

The cache state carries the payload map, the usage map, the cached size,
the policy, the budget and the synchronization flag.  The caller-supplied
data needed by an operation arrives as explicit arguments: `remote p` is
the outcome of `operation.Get(c.framework, p)` (`none` = error) and `now`
is `time.Now().UnixNano()` for the LRU timestamps.  The `evictPathCh`
channel only tears down the per-entry watch goroutine and holds no cache
state; the watch arming performed at the end of a synchronized `Get` is
likewise outside the cache state and not modelled. -/

inductive EvictionPolicy where
  | evictLeastRecentlyUsed
  | evictLeastFrequentlyUsed
  | evictRandomly
  deriving DecidableEq, Repr

structure CacheState where
  frameworkNamespace : String
  cache : List (String × List Nat)
  cacheUsage : List (String × Int)
  sizeInBytes : Int
  evictionPolicy : EvictionPolicy
  maxSizeInBytes : Int
  synched : Bool
  deriving DecidableEq, Repr

structure ZKCacheOptions where
  maxSizeInBytes : Int
  evictionPolicy : EvictionPolicy
  enableCacheSynch : Bool
  deriving DecidableEq, Repr

inductive CacheErr where
  | invalidCacheSize
  deriving DecidableEq, Repr

/-- `NewCacheWithOptions`: a non-positive budget fails with
`ErrInvalidCacheSize`, otherwise all maps start empty and the size at 0. -/
def newCacheWithOptions (namespace0 : String) (options : ZKCacheOptions) :
    Except CacheErr CacheState :=
  if options.maxSizeInBytes ≤ 0 then Except.error CacheErr.invalidCacheSize
  else
    Except.ok
      { frameworkNamespace := namespace0
        cache := []
        cacheUsage := []
        sizeInBytes := 0
        evictionPolicy := options.evictionPolicy
        maxSizeInBytes := options.maxSizeInBytes
        synched := options.enableCacheSynch }

/-- The sum computed by `refreshSizeInBytes`:
`size := 0; for _, data := range c.cache { size += len(data) }`. -/
def computeSizeInBytes (m : List (String × List Nat)) : Int :=
  m.foldl (fun size kv => size + (kv.2.length : Int)) 0

def refreshSizeInBytes (c : CacheState) : CacheState :=
  {c with sizeInBytes := computeSizeInBytes c.cache}

/-- `evict`: delete the path from both maps (the `evictPathCh` send that
precedes it when `synched` only stops the entry's watch goroutine). -/
def evict (c : CacheState) (zkPath : String) : CacheState :=
  {c with cache := alErase c.cache zkPath, cacheUsage := alErase c.cacheUsage zkPath}

/-- `evictLRU`: scan `cacheUsage` for the entry with the smallest
timestamp strictly below the starting value `time.Now().UnixNano()`, keep
the first minimum in iteration order, and evict it when one was found. -/
def evictLRU (c : CacheState) (now : Int) : CacheState :=
  let folded := c.cacheUsage.foldl
    (fun best kv => if kv.2 < best.2 then kv else best) (("", now) : String × Int)
  if folded.1 = "" then c else evict c folded.1

def maxInt64 : Int := 9223372036854775807

/-- `evictLFU`: same scan with the counter ordered below `math.MaxInt64`. -/
def evictLFU (c : CacheState) : CacheState :=
  let folded := c.cacheUsage.foldl
    (fun best kv => if kv.2 < best.2 then kv else best) (("", maxInt64) : String × Int)
  if folded.1 = "" then c else evict c folded.1

/-- `evictRandomly`: evict the first entry met when iterating the cache
map (iteration-order dependent in Go; the head of the association list
stands in). -/
def evictRandomly (c : CacheState) : CacheState :=
  match c.cache with
  | [] => c
  | kv :: _ => evict c kv.1

/-- `evictByPolicy`; the `ErrInvalidEvictionPolicy` default branch is
unreachable for the three-valued policy type. -/
def evictByPolicy (c : CacheState) (now : Int) : CacheState :=
  match c.evictionPolicy with
  | EvictionPolicy.evictLeastRecentlyUsed => evictLRU c now
  | EvictionPolicy.evictLeastFrequentlyUsed => evictLFU c
  | EvictionPolicy.evictRandomly => evictRandomly c

def testExceedingResources (c : CacheState) : Bool :=
  decide (c.maxSizeInBytes < c.sizeInBytes)

/-- `initCacheUsageByPolicy`: LFU starts the counter at 1, LRU stamps the
current time, the random policy keeps no usage. -/
def initCacheUsageByPolicy (c : CacheState) (zkPath : String) (now : Int) : CacheState :=
  match c.evictionPolicy with
  | EvictionPolicy.evictLeastFrequentlyUsed =>
    {c with cacheUsage := alInsert c.cacheUsage zkPath 1}
  | EvictionPolicy.evictLeastRecentlyUsed =>
    {c with cacheUsage := alInsert c.cacheUsage zkPath now}
  | EvictionPolicy.evictRandomly => c

/-- `incrementUsageByPolicy`: LFU increments the counter
(`c.cacheUsage[zkPath]++` reads the zero value 0 for a missing key), LRU
re-stamps the time. -/
def incrementUsageByPolicy (c : CacheState) (zkPath : String) (now : Int) : CacheState :=
  match c.evictionPolicy with
  | EvictionPolicy.evictLeastFrequentlyUsed =>
    {c with cacheUsage :=
      alInsert c.cacheUsage zkPath ((alLookup c.cacheUsage zkPath).getD 0 + 1)}
  | EvictionPolicy.evictLeastRecentlyUsed =>
    {c with cacheUsage := alInsert c.cacheUsage zkPath now}
  | EvictionPolicy.evictRandomly => c

/-- `Get` (part_014 lines 113-162).  A hit bumps the usage metric and
returns the cached payload with no remote call.  A miss first runs one
policy eviction when the cache is over budget, then fetches through the
CRUD collaborator: a fetch failure is propagated with the cache left as
the eviction left it, a success inserts the entry, initializes its usage,
recomputes the size and (when `synched`) arms the data-changed watch. -/
def cacheGet (c : CacheState) (remote : String → Option (List Nat)) (now : Int)
    (nodeName : String) : CacheState × Option (List Nat) :=
  let actualPath := goPathJoin [c.frameworkNamespace, nodeName]
  match alLookup c.cache actualPath with
  | some cachedData => (incrementUsageByPolicy c actualPath now, some cachedData)
  | none =>
    let c1 := if testExceedingResources c then evictByPolicy c now else c
    match remote actualPath with
    | none => (c1, none)
    | some data =>
      let c2 := {c1 with cache := alInsert c1.cache actualPath data}
      let c3 := initCacheUsageByPolicy c2 actualPath now
      (refreshSizeInBytes c3, some data)

/-- `IsCached`. -/
def isCached (c : CacheState) (nodeName : String) : Bool :=
  (alLookup c.cache (goPathJoin [c.frameworkNamespace, nodeName])).isSome

/-- `GetSizeInBytes`. -/
def getSizeInBytes (c : CacheState) : Int :=
  c.sizeInBytes

/-- `Clear`: evict every path currently in the cache, then recompute the
size. -/
def cacheClear (c : CacheState) : CacheState :=
  refreshSizeInBytes ((c.cache.map (fun kv => kv.1)).foldl evict c)

/-- `renew` (part_014 lines 190-203), the asynchronous refresh triggered
by a data-changed event on a synchronized entry.  On a fetch error it
logs, deletes the entry — and then falls through to the unconditional
`c.cache[actualPath] = data`, which re-adds the path bound to the `nil`
slice the failed fetch returned (modelled as the empty payload `[]`).
On success the entry is overwritten with the fresh payload.  Both paths
end by recomputing the size. -/
def renew (c : CacheState) (remote : String → Option (List Nat)) (actualPath : String) :
    CacheState :=
  match remote actualPath with
  | none =>
    let c1 := {c with cache := alErase c.cache actualPath}
    refreshSizeInBytes {c1 with cache := alInsert c1.cache actualPath []}
  | some data =>
    refreshSizeInBytes {c with cache := alInsert c.cache actualPath data}

/-- The size invariant claimed by the spec: the reported size equals the
sum of the cached payload lengths. -/
def sizeInv (c : CacheState) : Prop :=
  c.sizeInBytes = computeSizeInBytes c.cache

instance (c : CacheState) : Decidable (sizeInv c) := by
  unfold sizeInv
  infer_instance

/-! ## Concrete fixtures used by the counterexamples and witnesses -/

def nsRoot : String := "/ns"

def nodeA : String := "a"

def nodeB : String := "b"

def nodeC : String := "c"

def pathNsA : String := "/ns/a"

def pathNsB : String := "/ns/b"

def pathNsC : String := "/ns/c"

/-- A remote whose `operation.Get` always fails. -/
def failRemote : String → Option (List Nat) := fun _ => none

/-- A synchronized cache holding one stale entry for `/ns/a`. -/
def cStale : CacheState :=
  { frameworkNamespace := nsRoot
    cache := [(pathNsA, [1, 2, 3])]
    cacheUsage := [(pathNsA, 1)]
    sizeInBytes := 3
    evictionPolicy := EvictionPolicy.evictLeastFrequentlyUsed
    maxSizeInBytes := 100
    synched := true }

/-- Run a sequence of `Get` calls, keeping the cache state. -/
def traceGets (c : CacheState) (remote : String → Option (List Nat))
    (names : List String) : CacheState :=
  names.foldl (fun acc n => (cacheGet acc remote 0 n).1) c

/-- Remote with three one-byte payloads. -/
def remoteABC1 : String → Option (List Nat) := fun p =>
  if p = pathNsA then some [11]
  else if p = pathNsB then some [22]
  else if p = pathNsC then some [33] else none

/-- Remote with three two-byte payloads. -/
def remoteABC2 : String → Option (List Nat) := fun p =>
  if p = pathNsA then some [11, 11]
  else if p = pathNsB then some [22, 22]
  else if p = pathNsC then some [33, 33] else none

/-- Remote where only `a` and `b` exist. -/
def remoteAB : String → Option (List Nat) := fun p =>
  if p = pathNsA then some [7]
  else if p = pathNsB then some [8] else none

/-- Empty LFU cache whose budget holds exactly 2 of 3 equal-size (1 byte)
entries. -/
def c2Start : CacheState :=
  { frameworkNamespace := nsRoot
    cache := []
    cacheUsage := []
    sizeInBytes := 0
    evictionPolicy := EvictionPolicy.evictLeastFrequentlyUsed
    maxSizeInBytes := 2
    synched := false }

/-- Empty LFU cache whose budget is one byte short of 2 equal-size (2
byte) entries — the capacity used by the repository's own LFU test
(`WithMaxSizeInBytes(len(data1) + len(data2) - 1)`). -/
def c2bStart : CacheState :=
  { frameworkNamespace := nsRoot
    cache := []
    cacheUsage := []
    sizeInBytes := 0
    evictionPolicy := EvictionPolicy.evictLeastFrequentlyUsed
    maxSizeInBytes := 3
    synched := false }

/-- The access pattern A×3, B×2, C×1. -/
def patternABC : List String := [nodeA, nodeA, nodeA, nodeB, nodeB, nodeC]

def c2Final : CacheState := traceGets c2Start remoteABC1 patternABC

def c2bFinal : CacheState := traceGets c2bStart remoteABC2 patternABC

/-- Empty LFU cache with a 1-byte budget. -/
def c6Start : CacheState :=
  { frameworkNamespace := nsRoot
    cache := []
    cacheUsage := []
    sizeInBytes := 0
    evictionPolicy := EvictionPolicy.evictLeastFrequentlyUsed
    maxSizeInBytes := 1
    synched := false }

/-- Get(a), Get(a), Get(b) fill the cache past its budget; the final
Get(c) evicts `b` by LFU and then fails its remote fetch. -/
def c6Final : CacheState := traceGets c6Start remoteAB [nodeA, nodeA, nodeB, nodeC]

def optsLFU2 : ZKCacheOptions :=
  { maxSizeInBytes := 2
    evictionPolicy := EvictionPolicy.evictLeastFrequentlyUsed
    enableCacheSynch := false }

/-- The state `newCacheWithOptions nsRoot optsLFU2` constructs. -/
def cFreshLFU2 : CacheState :=
  { frameworkNamespace := nsRoot
    cache := []
    cacheUsage := []
    sizeInBytes := 0
    evictionPolicy := EvictionPolicy.evictLeastFrequentlyUsed
    maxSizeInBytes := 2
    synched := false }

def uuid1 : String := "u1"

def uuid2 : String := "u2"

def zkURL : String := "zk-host:2181"

/-- A framework state (listener payloads are bare numbers) with one
status-change listener and one shutdown listener, both keyed `u1`. -/
def fwEx : FrameworkState Nat :=
  { frameworkNamespace := nsRoot
    url := zkURL
    state := ZkState.stateDisconnected
    previousState := ZkState.stateDisconnected
    started := false
    reconnectionTimeoutMs := defaultReconnectionTimeoutMs
    shutdownListeners := [(uuid1, 6)]
    statusChangeListeners := [(uuid1, 5)] }

def connRefused : String := "connection refused"

def segsGood : List String := ["", "a/", "/b", "c"]

def segsBad : List String := ["a//b"]

def evDataChanged : ZkEvent :=
  { eventType := EventType.nodeDataChanged, eventPath := pathNsA }

def evSession : ZkEvent :=
  { eventType := EventType.session, eventPath := pathNsA }

/-- Well-formed rendering required of a namespace: exactly one leading
separator (a leading separator not followed by another) and no trailing
one (except for the bare root). -/
def namespaceWellFormed (s : String) : Bool :=
  match s.data with
  | [] => false
  | c :: rest =>
    decide (c = sepChar) && decide (rest.head? ≠ some sepChar) &&
      decide (rest.getLast? ≠ some sepChar)

/-! ## Helper lemmas -/

theorem alLookup_alInsert_self {α : Type} (m : List (String × α)) (k : String) (v : α) :
    alLookup (alInsert m k v) k = some v := by
  induction m with
  | nil => simp [alInsert, alLookup]
  | cons kv rest ih =>
    by_cases h : kv.1 = k
    · simp [alInsert, alLookup, h]
    · simp [alInsert, alLookup, h, ih]

theorem sizeInv_refreshSizeInBytes (c : CacheState) : sizeInv (refreshSizeInBytes c) := by
  simp [sizeInv, refreshSizeInBytes]

theorem incrementUsage_cache_eq (c : CacheState) (p : String) (now : Int) :
    (incrementUsageByPolicy c p now).cache = c.cache ∧
      (incrementUsageByPolicy c p now).sizeInBytes = c.sizeInBytes := by
  cases h : c.evictionPolicy <;> simp [incrementUsageByPolicy, h]

/-! ## The claims -/

/-- C1 (counterexample): with the synchronized cache `cStale` holding the
stale entry `/ns/a ↦ [1,2,3]` and a remote whose refresh `Get` fails,
`renew` does *not* retain the stale entry — it leaves the path bound to
the empty payload, and a subsequent cache `Get` returns that empty
payload instead of the last known value. -/
theorem C1_counterexample :
    alLookup (renew cStale failRemote pathNsA).cache pathNsA ≠ some [1, 2, 3] ∧
    alLookup (renew cStale failRemote pathNsA).cache pathNsA = some [] ∧
    (cacheGet (renew cStale failRemote pathNsA) failRemote 0 nodeA).2 ≠ some [1, 2, 3] ∧
    (cacheGet (renew cStale failRemote pathNsA) failRemote 0 nodeA).2 = some [] := by
  decide

/-- C1 (amended): when the asynchronous refresh `renew` fails its remote
fetch, the entry is deleted and immediately re-added bound to the nil
(empty) payload of the failed fetch, so a subsequent `Get` for that path
hits the cache and returns the empty payload, not the last known value. -/
theorem C1_renew_failure_replaces_entry_with_empty
    (c : CacheState) (remote remote2 : String → Option (List Nat)) (now : Int)
    (nodeName : String)
    (h : remote (goPathJoin [c.frameworkNamespace, nodeName]) = none) :
    alLookup (renew c remote (goPathJoin [c.frameworkNamespace, nodeName])).cache
      (goPathJoin [c.frameworkNamespace, nodeName]) = some [] ∧
    (cacheGet (renew c remote (goPathJoin [c.frameworkNamespace, nodeName]))
      remote2 now nodeName).2 = some [] := by
  have hc : (renew c remote (goPathJoin [c.frameworkNamespace, nodeName])).cache =
      alInsert (alErase c.cache (goPathJoin [c.frameworkNamespace, nodeName]))
        (goPathJoin [c.frameworkNamespace, nodeName]) [] := by
    simp [renew, h, refreshSizeInBytes]
  have hns : (renew c remote (goPathJoin [c.frameworkNamespace, nodeName])).frameworkNamespace =
      c.frameworkNamespace := by
    simp [renew, h, refreshSizeInBytes]
  refine ⟨?_, ?_⟩
  · rw [hc]
    exact alLookup_alInsert_self _ _ _
  · simp [cacheGet, hns, hc, alLookup_alInsert_self]

/-- C1 (witness). -/
theorem C1_witness :
    alLookup (renew cStale failRemote (goPathJoin [cStale.frameworkNamespace, nodeA])).cache
      (goPathJoin [cStale.frameworkNamespace, nodeA]) = some [] ∧
    (cacheGet (renew cStale failRemote (goPathJoin [cStale.frameworkNamespace, nodeA]))
      failRemote 0 nodeA).2 = some [] :=
  C1_renew_failure_replaces_entry_with_empty cStale failRemote failRemote 0 nodeA rfl

/-- C2 (counterexample): with the LFU cache whose budget holds exactly 2
of 3 equal-size entries, the access pattern A×3, B×2, C×1 evicts nothing:
C is still cached afterwards (as are A and B), refuting "entry C has been
evicted". -/
theorem C2_counterexample :
    isCached c2Final nodeC = true ∧ isCached c2Final nodeA = true ∧
      isCached c2Final nodeB = true := by
  decide

/-- C2 (amended): with a budget of exactly two equal-size entries the
pattern A×3, B×2, C×1 triggers no eviction (the miss check is strict
`size > max`), so A, B and C all remain cached; with the budget the
repository's own LFU test uses — one byte short of two entries — the miss
on C triggers a single LFU eviction which removes B, the least frequently
used, so A and C remain cached while B is evicted. -/
theorem C2_lfu_pattern_behavior :
    (isCached c2Final nodeA = true ∧ isCached c2Final nodeB = true ∧
      isCached c2Final nodeC = true ∧ getSizeInBytes c2Final = 3) ∧
    (isCached c2bFinal nodeA = true ∧ isCached c2bFinal nodeB = false ∧
      isCached c2bFinal nodeC = true) := by
  decide

/-- C3: a CRUD call on a never-started framework does not return the
`FrameworkNotYetStarted` error — it never returns at all.  `execute`
performs `errChan <- ErrFrameworkNotYetStarted` on the caller's goroutine
on a just-created unbuffered channel, before the channels are returned and
before any receiver goroutine exists, so the send blocks forever and the
surrounding operation never reaches its `select`. -/
theorem C3_not_started_operation_never_returns :
    ∀ (rg : Except OpError (List Nat)) (ru : Except OpError Int)
      (rc rd : Except OpError Unit) (re : Except OpError Bool)
      (rl : Except OpError (List String)),
      opGet false rg = OpOutcome.neverReturns ∧
      opUpdate false ru = OpOutcome.neverReturns ∧
      opCreate false rc = OpOutcome.neverReturns ∧
      opDelete false rd = OpOutcome.neverReturns ∧
      opExists false re = OpOutcome.neverReturns ∧
      opLs false rl = OpOutcome.neverReturns := by
  intro rg ru rc rd re rl
  simp [opGet, opUpdate, opCreate, opDelete, opExists, opLs, operationCall,
    executeSync, unbufferedSendCompletes]

/-- C4: delivering a raw state event equal to the current state leaves the
framework state (current and previous state included) unchanged, does not
notify any status-change listener and does not trigger a reconnect. -/
theorem C4_same_state_event_is_noop :
    ∀ (Λ : Type) (c : FrameworkState Λ),
      handleStatusChange c c.state = ⟨c, false, false⟩ := by
  intro Λ c
  simp [handleStatusChange]

/-- C6 (counterexample): running Get(a), Get(a), Get(b) and then a Get(c)
whose remote fetch fails leaves a *completed* Get behind which the
reported size (2) differs from the sum of the cached payload lengths (1):
the over-budget miss evicted `b` without recomputing the size, and the
failed fetch returned before any recomputation. -/
theorem C6_counterexample :
    getSizeInBytes c6Final = 2 ∧ computeSizeInBytes c6Final.cache = 1 ∧
      ¬ sizeInv c6Final := by
  decide

/-- C6 (amended): the size equals the sum of the cached payload lengths
after every `Get` that returns a payload (given the invariant held
before), after every `Clear` and after every `renew`, and a freshly
constructed cache reports size 0; a `Get` that evicts and then fails its
remote fetch is the one completed operation that can leave the size
stale. -/
theorem C6_size_invariant_after_operations :
    ∀ (c : CacheState) (remote : String → Option (List Nat)) (now : Int)
      (nodeName actualPath ns2 : String) (d : List Nat) (opts : ZKCacheOptions)
      (c0 : CacheState),
      (sizeInv c → (cacheGet c remote now nodeName).2 = some d →
        sizeInv (cacheGet c remote now nodeName).1) ∧
      sizeInv (cacheClear c) ∧
      sizeInv (renew c remote actualPath) ∧
      (newCacheWithOptions ns2 opts = Except.ok c0 → c0.sizeInBytes = 0) := by
  intro c remote now nodeName actualPath ns2 d opts c0
  refine ⟨?_, ?_, ?_, ?_⟩
  · intro hinv _
    unfold cacheGet
    cases hlk : alLookup c.cache (goPathJoin [c.frameworkNamespace, nodeName]) with
    | some v =>
      simp only [hlk]
      have hpres := incrementUsage_cache_eq c (goPathJoin [c.frameworkNamespace, nodeName]) now
      unfold sizeInv at hinv ⊢
      rw [hpres.1, hpres.2]
      exact hinv
    | none =>
      simp only [hlk]
      cases hrm : remote (goPathJoin [c.frameworkNamespace, nodeName]) with
      | none =>
        exfalso
        have hres : (cacheGet c remote now nodeName).2 = none := by
          simp [cacheGet, hlk, hrm]
        rename_i hsome
        rw [hsome] at hres
        cases hres
      | some data =>
        exact sizeInv_refreshSizeInBytes _
  · exact sizeInv_refreshSizeInBytes _
  · unfold renew
    cases remote actualPath <;> exact sizeInv_refreshSizeInBytes _
  · intro h
    unfold newCacheWithOptions at h
    split at h
    · cases h
    · cases h
      rfl

/-- C6 (witness). -/
theorem C6_witness :
    sizeInv (cacheGet cFreshLFU2 remoteAB 0 nodeA).1 ∧ sizeInv (cacheClear cFreshLFU2) ∧
      sizeInv (renew cFreshLFU2 remoteAB pathNsA) ∧ cFreshLFU2.sizeInBytes = 0 := by
  have h := C6_size_invariant_after_operations cFreshLFU2 remoteAB 0 nodeA pathNsA nsRoot
    [7] optsLFU2 cFreshLFU2
  exact ⟨h.1 (by decide) (by decide), h.2.1, h.2.2.1, h.2.2.2 rfl⟩

/-- C7: a `Set` with no event types requests the full set {data-changed,
children-changed, created, deleted} (stored sorted by protocol code), and
the armed watch loop forwards an event to the output destination iff its
type is a member of the requested set. -/
theorem C7_default_types_and_filtering :
    ∀ (table : List (String × WatchListener)) (ns0 nodeName : String)
      (ts : List EventType) (ex : Bool) (evs : List ZkEvent) (e : ZkEvent),
      (ts = [] → (watcherSet table ns0 nodeName ts ex).2.1.types =
        [EventType.nodeCreated, EventType.nodeDeleted, EventType.nodeDataChanged,
          EventType.nodeChildrenChanged]) ∧
      (e ∈ processEvents (watcherSet table ns0 nodeName ts ex).2.1 evs ↔
        e ∈ evs ∧ e.eventType ∈ (watcherSet table ns0 nodeName ts ex).2.1.types) := by
  intro table ns0 nodeName ts ex evs e
  constructor
  · intro h
    subst h
    cases ex <;> simp [watcherSet] <;> decide
  · cases ex <;> simp [watcherSet, processEvents, List.mem_filter]

/-- C7 (witness). -/
theorem C7_witness :
    (watcherSet [] nsRoot nodeA [] true).2.1.types =
      [EventType.nodeCreated, EventType.nodeDeleted, EventType.nodeDataChanged,
        EventType.nodeChildrenChanged] ∧
    (evSession ∈ processEvents (watcherSet [] nsRoot nodeA [] true).2.1
        [evDataChanged, evSession] ↔
      evSession ∈ [evDataChanged, evSession] ∧
        evSession.eventType ∈ (watcherSet [] nsRoot nodeA [] true).2.1.types) := by
  have h := C7_default_types_and_filtering [] nsRoot nodeA [] true
    [evDataChanged, evSession] evSession
  exact ⟨h.1 rfl, h.2⟩

/-- C8: on both registries, adding a listener under an already-registered
id fails with ListenerAlreadyExists leaving the state unchanged, and
removing an absent id fails with ListenerNotFound leaving the state
unchanged. -/
theorem C8_registry_duplicate_and_missing :
    ∀ (Λ : Type) (c : FrameworkState Λ) (uuid : String) (l : Λ),
      ((alLookup c.statusChangeListeners uuid).isSome = true →
        addStatusChangeListener c uuid l = (c, some CoreErr.listenerAlreadyExists)) ∧
      (alLookup c.statusChangeListeners uuid = none →
        removeStatusChangeListener c uuid = (c, some CoreErr.listenerNotFound)) ∧
      ((alLookup c.shutdownListeners uuid).isSome = true →
        addShutdownListener c uuid l = (c, some CoreErr.listenerAlreadyExists)) ∧
      (alLookup c.shutdownListeners uuid = none →
        removeShutdownListener c uuid = (c, some CoreErr.listenerNotFound)) := by
  intro Λ c uuid l
  refine ⟨fun h => ?_, fun h => ?_, fun h => ?_, fun h => ?_⟩ <;>
    simp [addStatusChangeListener, removeStatusChangeListener, addShutdownListener,
      removeShutdownListener, h]

/-- C8 (witness). -/
theorem C8_witness :
    addStatusChangeListener fwEx uuid1 7 = (fwEx, some CoreErr.listenerAlreadyExists) ∧
    removeStatusChangeListener fwEx uuid2 = (fwEx, some CoreErr.listenerNotFound) ∧
    addShutdownListener fwEx uuid1 7 = (fwEx, some CoreErr.listenerAlreadyExists) ∧
    removeShutdownListener fwEx uuid2 = (fwEx, some CoreErr.listenerNotFound) :=
  ⟨(C8_registry_duplicate_and_missing Nat fwEx uuid1 7).1 (by decide),
    (C8_registry_duplicate_and_missing Nat fwEx uuid2 7).2.1 (by decide),
    (C8_registry_duplicate_and_missing Nat fwEx uuid1 7).2.2.1 (by decide),
    (C8_registry_duplicate_and_missing Nat fwEx uuid2 7).2.2.2 (by decide)⟩

/-- C9: `UnSet` for a key with no live registration dereferences the nil
pointer returned by the table lookup (a runtime panic) instead of
returning an error, so `UnSet` is safe only when a matching `Set` was
performed and not yet unset.  With a registration armed by a successful
`Set` (and not torn down by a disconnect) it completes and removes the
entry; for a registration whose `Set` failed before arming the watch,
`Stop()` blocks forever on the unbuffered shutdown send. -/
theorem C9_unset_requires_prior_set :
    ∀ (table : List (String × WatchListener)) (ns0 nodeName : String)
      (ts : List EventType),
      (alLookup table (watchID ns0 nodeName ts) = none →
        watcherUnSet table ns0 nodeName ts = UnSetOutcome.nilPanic) ∧
      (∀ l, alLookup table (watchID ns0 nodeName ts) = some l →
        l.watching = true → l.disconnected = false →
        watcherUnSet table ns0 nodeName ts =
          UnSetOutcome.completed (alErase table (watchID ns0 nodeName ts))) ∧
      (∀ l, alLookup table (watchID ns0 nodeName ts) = some l →
        l.watching = false →
        watcherUnSet table ns0 nodeName ts = UnSetOutcome.blockedForever) ∧
      (watcherUnSet (watcherSet table ns0 nodeName ts true).1 ns0 nodeName ts =
        UnSetOutcome.completed
          (alErase (watcherSet table ns0 nodeName ts true).1 (watchID ns0 nodeName ts))) ∧
      (watcherUnSet (watcherSet table ns0 nodeName ts false).1 ns0 nodeName ts =
        UnSetOutcome.blockedForever) := by
  intro table ns0 nodeName ts
  refine ⟨fun h => ?_, fun l h hw hd => ?_, fun l h hw => ?_, ?_, ?_⟩
  · simp [watcherUnSet, h]
  · simp [watcherUnSet, h, hw, hd, unbufferedSendCompletes]
  · simp [watcherUnSet, h, hw, unbufferedSendCompletes]
  · simp [watcherSet, watcherUnSet, alLookup_alInsert_self, unbufferedSendCompletes]
  · simp [watcherSet, watcherUnSet, alLookup_alInsert_self, unbufferedSendCompletes]

/-- C9 (witness). -/
theorem C9_witness :
    watcherUnSet [] nsRoot nodeA [] = UnSetOutcome.nilPanic ∧
    watcherUnSet (watcherSet [] nsRoot nodeA [] true).1 nsRoot nodeA [] =
      UnSetOutcome.completed
        (alErase (watcherSet [] nsRoot nodeA [] true).1 (watchID nsRoot nodeA [])) ∧
    watcherUnSet (watcherSet [] nsRoot nodeA [] false).1 nsRoot nodeA [] =
      UnSetOutcome.blockedForever := by
  have h := C9_unset_requires_prior_set [] nsRoot nodeA []
  exact ⟨h.1 rfl, h.2.2.2.1, h.2.2.2.2⟩

/-- C10: `Start` sets the started flag before the initial connect and does
not reset it on a connect failure: afterwards `Started()` is true, a
second `Start` fails with FrameworkAlreadyStarted, and `WaitConnection`
does not take the FrameworkNotYetStarted exit. -/
theorem C10_start_nonatomic_on_connect_failure :
    ∀ (Λ : Type) (c : FrameworkState Λ) (e : String) (e2 : Option String),
      c.started = false →
      (start c (some e)).1.started = true ∧
      (start c (some e)).2 = StartResult.connError e ∧
      (start (start c (some e)).1 e2).2 = StartResult.alreadyStarted ∧
      waitConnectionSync (start c (some e)).1 ≠ WaitDecision.notYetStarted := by
  intro Λ c e e2 h
  refine ⟨?_, ?_, ?_, ?_⟩
  · simp [start, h]
  · simp [start, h]
  · simp [start, h]
  · simp only [start, h, Bool.false_eq_true, if_false]
    unfold waitConnectionSync
    cases hc : isConnectedState ({c with started := true} : FrameworkState Λ).state <;>
      simp [hc]

/-- C10 (witness). -/
theorem C10_witness :
    (start fwEx (some connRefused)).1.started = true ∧
    (start fwEx (some connRefused)).2 = StartResult.connError connRefused ∧
    (start (start fwEx (some connRefused)).1 none).2 = StartResult.alreadyStarted ∧
    waitConnectionSync (start fwEx (some connRefused)).1 ≠ WaitDecision.notYetStarted :=
  C10_start_nonatomic_on_connect_failure Nat fwEx connRefused none rfl

/-! ## Lemmas on the lexical path algebra (for the namespace claim) -/

theorem splitSlash_no_sep (cs : List Char) :
    ∀ chunk ∈ splitSlash cs, sepChar ∉ chunk := by
  induction cs with
  | nil =>
    intro chunk hc
    simp [splitSlash] at hc
    simp [hc]
  | cons c rest ih =>
    intro chunk hc
    rw [splitSlash] at hc
    by_cases hcs : c = sepChar
    · rw [if_pos hcs] at hc
      rcases List.mem_cons.mp hc with h | h
      · simp [h]
      · exact ih chunk h
    · rw [if_neg hcs] at hc
      cases hr : splitSlash rest with
      | nil =>
        rw [hr] at hc
        simp at hc
        subst hc
        simp [hcs]
        intro h
        exact hcs h.symm
      | cons h t =>
        rw [hr] at hc
        rcases List.mem_cons.mp hc with h1 | h1
        · subst h1
          intro hmem
          rcases List.mem_cons.mp hmem with h2 | h2
          · exact hcs h2.symm
          · exact ih h (hr ▸ List.mem_cons_self h t) h2
        · exact ih chunk (hr ▸ List.mem_cons_of_mem h h1)

theorem cleanStack_chunks (rooted : Bool) :
    ∀ (rest acc : List (List Char)),
      (∀ x ∈ acc, x ≠ [] ∧ sepChar ∉ x) → (∀ x ∈ rest, sepChar ∉ x) →
      ∀ x ∈ cleanStack rooted acc rest, x ≠ [] ∧ sepChar ∉ x := by
  intro rest
  induction rest with
  | nil =>
    intro acc hacc _ x hx
    rw [cleanStack] at hx
    exact hacc x hx
  | cons c rest ih =>
    intro acc hacc hrest x hx
    have hrest2 : ∀ y ∈ rest, sepChar ∉ y := fun y hy => hrest y (List.mem_cons_of_mem _ hy)
    rw [cleanStack] at hx
    by_cases h1 : c = [] ∨ c = ['.']
    · rw [if_pos h1] at hx
      exact ih acc hacc hrest2 x hx
    · rw [if_neg h1] at hx
      by_cases h2 : c = ['.', '.']
      · rw [if_pos h2] at hx
        by_cases h3 : acc.getLast? = some ['.', '.']
        · rw [if_pos h3] at hx
          refine ih _ ?_ hrest2 x hx
          intro y hy
          rcases List.mem_append.mp hy with hy1 | hy2
          · exact hacc y hy1
          · rw [List.mem_singleton.mp hy2, h2]
            exact ⟨by simp, by decide⟩
        · rw [if_neg h3] at hx
          by_cases h4 : acc = []
          · rw [if_pos h4] at hx
            by_cases hro : rooted = true
            · subst hro
              rw [if_pos rfl] at hx
              exact ih acc hacc hrest2 x hx
            · rw [Bool.not_eq_true] at hro
              subst hro
              rw [if_neg (by simp)] at hx
              refine ih _ ?_ hrest2 x hx
              intro y hy
              rw [List.mem_singleton.mp hy, h2]
              exact ⟨by simp, by decide⟩
          · rw [if_neg h4] at hx
            exact ih _ (fun y hy => hacc y (List.mem_of_mem_dropLast hy)) hrest2 x hx
      · rw [if_neg h2] at hx
        refine ih _ ?_ hrest2 x hx
        intro y hy
        rcases List.mem_append.mp hy with hy1 | hy2
        · exact hacc y hy1
        · rw [List.mem_singleton.mp hy2]
          push_neg at h1
          exact ⟨h1.1, hrest c (List.mem_cons_self c rest)⟩

theorem joinSlash_edges :
    ∀ (l : List (List Char)), (∀ x ∈ l, x ≠ [] ∧ sepChar ∉ x) →
      (joinSlash l).head? ≠ some sepChar ∧ (joinSlash l).getLast? ≠ some sepChar ∧
        (l ≠ [] → joinSlash l ≠ []) := by
  intro l
  induction l with
  | nil =>
    intro _
    refine ⟨by simp [joinSlash], by simp [joinSlash], fun h => absurd rfl h⟩
  | cons x xs ih =>
    intro hinv
    have hx := hinv x (List.mem_cons_self x xs)
    cases xs with
    | nil =>
      have hj : joinSlash [x] = x := by rw [joinSlash]
      refine ⟨?_, ?_, fun _ => hj ▸ hx.1⟩
      · rw [hj]
        intro hh
        exact hx.2 (by
          have := List.eq_cons_of_mem_head? hh
          rw [this]
          exact List.mem_cons_self _ _)
      · rw [hj]
        intro hh
        rcases List.mem_getLast?_eq_getLast hh with ⟨hne, heq⟩
        exact hx.2 (heq ▸ List.getLast_mem hne)
    | cons y ys =>
      have hxs : ∀ z ∈ y :: ys, z ≠ [] ∧ sepChar ∉ z :=
        fun z hz => hinv z (List.mem_cons_of_mem _ hz)
      have ihy := ih hxs
      have hJne : joinSlash (y :: ys) ≠ [] := ihy.2.2 (by simp)
      have hj : joinSlash (x :: y :: ys) = x ++ sepChar :: joinSlash (y :: ys) := by
        rw [joinSlash]
      refine ⟨?_, ?_, fun _ => by simp [hj]⟩
      · rw [hj]
        rw [List.head?_append_of_ne_nil _ hx.1]
        intro hh
        exact hx.2 (by
          have := List.eq_cons_of_mem_head? hh
          rw [this]
          exact List.mem_cons_self _ _)
      · rw [hj]
        rw [List.getLast?_append_of_ne_nil _ (by simp : sepChar :: joinSlash (y :: ys) ≠ [])]
        rw [show sepChar :: joinSlash (y :: ys) = [sepChar] ++ joinSlash (y :: ys) from rfl]
        rw [List.getLast?_append_of_ne_nil _ hJne]
        exact ihy.2.1

theorem goClean_trim_edges (p : String) :
    (trimLeadingSlash (goClean p)).data.head? ≠ some sepChar ∧
      (trimLeadingSlash (goClean p)).data.getLast? ≠ some sepChar := by
  have hchunks : ∀ (b : Bool), ∀ x ∈ goCleanChunks b p.data, x ≠ [] ∧ sepChar ∉ x :=
    fun b => cleanStack_chunks b (splitSlash p.data) [] (by simp) (splitSlash_no_sep p.data)
  unfold goClean
  by_cases hr : isRooted p.data = true
  · rw [if_pos hr]
    have hj := joinSlash_edges (goCleanChunks true p.data) (hchunks true)
    have ht : trimLeadingSlash (String.mk (sepChar :: joinSlash (goCleanChunks true p.data))) =
        String.mk (joinSlash (goCleanChunks true p.data)) := by
      simp [trimLeadingSlash]
    rw [ht]
    exact ⟨hj.1, hj.2.1⟩
  · rw [if_neg hr]
    by_cases he : goCleanChunks false p.data = []
    · rw [if_pos he]
      exact ⟨by decide, by decide⟩
    · rw [if_neg he]
      have hj := joinSlash_edges (goCleanChunks false p.data) (hchunks false)
      cases hjs : joinSlash (goCleanChunks false p.data) with
      | nil =>
        exact ⟨by decide, by decide⟩
      | cons a rest =>
        have ha : a ≠ sepChar := by
          have h2 := hj.1
          rw [hjs] at h2
          simpa using h2
        have ht : trimLeadingSlash (String.mk (a :: rest)) = String.mk (a :: rest) := by
          simp [trimLeadingSlash, ha]
        rw [ht]
        have h2 := hj.1
        have h3 := hj.2.1
        rw [hjs] at h2 h3
        exact ⟨h2, h3⟩

theorem goPathJoin_trim_edges (segs : List String) :
    (trimLeadingSlash (goPathJoin segs)).data.head? ≠ some sepChar ∧
      (trimLeadingSlash (goPathJoin segs)).data.getLast? ≠ some sepChar := by
  cases hd : segs.dropWhile (fun e => e = "") with
  | nil =>
    simp only [goPathJoin, hd]
    exact ⟨by decide, by decide⟩
  | cons r rs =>
    simp only [goPathJoin, hd]
    exact goClean_trim_edges _

theorem createFrameworkNamespace_wellFormed (segs : List String) :
    namespaceWellFormed (createFrameworkNamespace segs) = true := by
  have h := goPathJoin_trim_edges segs
  unfold createFrameworkNamespace namespaceWellFormed
  have hdata : (String.append (String.mk [sepChar]) (trimLeadingSlash (goPathJoin segs))).data =
      sepChar :: (trimLeadingSlash (goPathJoin segs)).data := rfl
  rw [hdata]
  show (decide (sepChar = sepChar) &&
    decide ((trimLeadingSlash (goPathJoin segs)).data.head? ≠ some sepChar) &&
    decide ((trimLeadingSlash (goPathJoin segs)).data.getLast? ≠ some sepChar)) = true
  simp [Bool.and_eq_true, decide_eq_true_eq, h.1, h.2]

/-- C5 (counterexample): for the segment list `["a//b"]` the code's
namespace (built with `path.Join`, which lexically cleans the joined
path) is `/a/b`, while the claimed trim-join rendering is `/a//b` — the
two differ, so `CreateFramework` does not build the namespace as the
trim-join for every segment list. -/
theorem C5_counterexample :
    createFrameworkNamespace segsBad ≠ specTrimJoinNamespace segsBad ∧
    createFrameworkNamespace segsBad = "/a/b" ∧
    specTrimJoinNamespace segsBad = "/a//b" ∧
    (createFramework Unit zkURL segsBad).toOption.map
      (fun st => st.frameworkNamespace) = some "/a/b" := by
  decide

/-- C5 (amended): `CreateFramework` builds the namespace by joining the
segments and lexically *cleaning* the result (collapsing repeated
separators and resolving dot components), rendered with exactly one
leading separator and no trailing one; on segment lists without repeated
internal separators or dot components this coincides with the trim-join,
and in particular `["", "a/", "/b", "c"]` yields `/a/b/c`, while
`["a//b"]` yields `/a/b` rather than `/a//b`. -/
theorem C5_namespace_cleaned_join :
    (∀ segs : List String, namespaceWellFormed (createFrameworkNamespace segs) = true) ∧
    createFrameworkNamespace segsGood = "/a/b/c" ∧
    specTrimJoinNamespace segsGood = "/a/b/c" ∧
    createFrameworkNamespace segsBad = "/a/b" ∧
    (createFramework Unit zkURL segsGood).toOption.map
      (fun st => st.frameworkNamespace) = some "/a/b/c" :=
  ⟨createFrameworkNamespace_wellFormed, by decide, by decide, by decide, by decide⟩
